import Mathlib

/-!
Verification of the expression pipeline of the smart-calculator repository
(file src/calculator.py, class Calculator).

The embedding models Python numeric values as a sum of exact integers and
exact rationals.  CPython floats are binary rationals, and every concrete
computation the development reasons about stays inside values where float
arithmetic is exact, so rationals are used in place of floats.  Two kinds of
value leave the tracked fragment and are represented by opaque
constructors: a real power of a positive base with a non-integral exponent
yields a float the rational model does not track (PyNum.nonRat), and a
negative base raised to a non-integral exponent yields a complex number
(PyNum.complexVal), which the evaluator's final integrality test cannot
handle — complex % int raises TypeError.  Boundaries of the model, stated
here once: float arithmetic is kept exact instead of rounded to binary64,
so binary64 rounding, float overflow, and the OverflowError CPython raises
when converting a huge int to float in truediv are outside the model;
arithmetic on an untracked operand stays untracked, so errors that depend
on the untracked value (a zero divisor that is itself untracked, a negative
untracked base under a fractional exponent) are conflated into the opaque
results.  No theorem below quantifies over these collapsed paths.
-/

/-- The exception kinds that can escape the pipeline.  The first three are the
classified errors declared at the top of calculator.py; the last four model
built-in Python exceptions (ZeroDivisionError, IndexError, ValueError,
TypeError) that the pipeline neither raises intentionally nor catches. -/
inductive CalcError where
  | invalidExpression
  | invalidIdentifier
  | unknownVariable
  | zeroDivisionError
  | indexError
  | valueError
  | typeError
  deriving DecidableEq

/-- A classified error is one of the three exception classes declared in
calculator.py and caught by process_expression / process_assignment. -/
def classifiedError (e : CalcError) : Prop :=
  e = CalcError.invalidExpression ∨ e = CalcError.invalidIdentifier ∨
    e = CalcError.unknownVariable

instance (e : CalcError) : Decidable (classifiedError e) := by
  unfold classifiedError
  infer_instance

/-- A Python numeric value as it flows through the pipeline: an int, a float
(modelled as an exact rational), a real float whose value the rational model
does not track (a positive base raised to a fractional exponent), or a
complex number (a negative base raised to a fractional exponent). -/
inductive PyNum where
  | i : Int → PyNum
  | f : ℚ → PyNum
  | nonRat : PyNum
  | complexVal : PyNum
  deriving DecidableEq

/-- The rational value of a PyNum, when the model knows it. -/
def PyNum.toQ : PyNum → Option ℚ
  | PyNum.i n => some (n : ℚ)
  | PyNum.f q => some q
  | PyNum.nonRat => none
  | PyNum.complexVal => none

/-- operator.add: int + int is an int, any float makes the result a float,
any complex operand makes the result complex. -/
def pyAdd : PyNum → PyNum → PyNum
  | PyNum.i m, PyNum.i n => PyNum.i (m + n)
  | PyNum.i m, PyNum.f q => PyNum.f ((m : ℚ) + q)
  | PyNum.f q, PyNum.i n => PyNum.f (q + (n : ℚ))
  | PyNum.f p, PyNum.f q => PyNum.f (p + q)
  | PyNum.complexVal, _ => PyNum.complexVal
  | _, PyNum.complexVal => PyNum.complexVal
  | _, _ => PyNum.nonRat

/-- operator.sub, with the same typing as pyAdd. -/
def pySub : PyNum → PyNum → PyNum
  | PyNum.i m, PyNum.i n => PyNum.i (m - n)
  | PyNum.i m, PyNum.f q => PyNum.f ((m : ℚ) - q)
  | PyNum.f q, PyNum.i n => PyNum.f (q - (n : ℚ))
  | PyNum.f p, PyNum.f q => PyNum.f (p - q)
  | PyNum.complexVal, _ => PyNum.complexVal
  | _, PyNum.complexVal => PyNum.complexVal
  | _, _ => PyNum.nonRat

/-- operator.mul, with the same typing as pyAdd. -/
def pyMul : PyNum → PyNum → PyNum
  | PyNum.i m, PyNum.i n => PyNum.i (m * n)
  | PyNum.i m, PyNum.f q => PyNum.f ((m : ℚ) * q)
  | PyNum.f q, PyNum.i n => PyNum.f (q * (n : ℚ))
  | PyNum.f p, PyNum.f q => PyNum.f (p * q)
  | PyNum.complexVal, _ => PyNum.complexVal
  | _, PyNum.complexVal => PyNum.complexVal
  | _, _ => PyNum.nonRat

/-- operator.truediv: always produces a float (complex if an operand is
complex); a zero divisor raises ZeroDivisionError.  Model boundary: the
quotient is kept exact where CPython rounds it to binary64 and raises
OverflowError when an int operand is too large for float conversion, and a
divisor whose value is untracked (nonRat or complexVal) cannot be tested
for zero, so those error paths are conflated into the opaque results. -/
def pyDiv (a b : PyNum) : Except CalcError PyNum :=
  match a, b with
  | PyNum.complexVal, _ => Except.ok PyNum.complexVal
  | _, PyNum.complexVal => Except.ok PyNum.complexVal
  | _, _ =>
    match PyNum.toQ b with
    | none => Except.ok PyNum.nonRat
    | some qb =>
      if qb = 0 then Except.error CalcError.zeroDivisionError
      else
        match PyNum.toQ a with
        | none => Except.ok PyNum.nonRat
        | some qa => Except.ok (PyNum.f (qa / qb))

/-- operator.pow.  int ** non-negative int is an exact int; a negative int
exponent gives a float (raising ZeroDivisionError on base 0).  With a float
involved, an integral exponent gives the exact rational power as a float;
under a fractional exponent a negative base gives a complex number, a
positive base gives a real float the rational model does not track, and
base 0 gives 0.0 for a positive exponent and ZeroDivisionError for a
negative one.  A complex operand keeps the result complex; an untracked
real operand keeps it untracked (its unknown sign means a complex result
is conflated into nonRat there). -/
def pyPow (a b : PyNum) : Except CalcError PyNum :=
  match a, b with
  | PyNum.i m, PyNum.i n =>
    if 0 ≤ n then Except.ok (PyNum.i (m ^ n.toNat))
    else if m = 0 then Except.error CalcError.zeroDivisionError
    else Except.ok (PyNum.f ((m : ℚ) ^ n))
  | PyNum.complexVal, _ => Except.ok PyNum.complexVal
  | _, PyNum.complexVal => Except.ok PyNum.complexVal
  | _, _ =>
    match PyNum.toQ a, PyNum.toQ b with
    | some qa, some qb =>
      if qb.den = 1 then
        if 0 ≤ qb.num then Except.ok (PyNum.f (qa ^ qb.num.toNat))
        else if qa = 0 then Except.error CalcError.zeroDivisionError
        else Except.ok (PyNum.f (qa ^ qb.num))
      else
        if qa = 0 then
          if 0 ≤ qb.num then Except.ok (PyNum.f 0)
          else Except.error CalcError.zeroDivisionError
        else if qa.num < 0 then Except.ok PyNum.complexVal
        else Except.ok PyNum.nonRat
    | _, _ => Except.ok PyNum.nonRat

/-- operator.neg, the unary-minus semantic function. -/
def pyNeg : PyNum → PyNum
  | PyNum.i n => PyNum.i (-n)
  | PyNum.f q => PyNum.f (-q)
  | PyNum.nonRat => PyNum.nonRat
  | PyNum.complexVal => PyNum.complexVal

/-- Calculator.binary_operators membership test. -/
def isBinaryOp (s : String) : Bool :=
  s == ("-") || s == ("+") || s == ("/") || s == ("*") || s == ("^")

/-- Calculator.unary_operators membership test. -/
def isUnaryOp (s : String) : Bool :=
  s == ("-") || s == ("+")

/-- Calculator.precedence lookup (only ever consulted on binary operators). -/
def prec : String → Nat
  | "-" => 1
  | "+" => 1
  | "/" => 2
  | "*" => 2
  | "^" => 3
  | _ => 0

/-- Dispatch of Calculator.binary_operators: the semantic function of each
binary operator, applied as a OP b.  The catch-all is unreachable because
every caller first checks isBinaryOp. -/
def applyBin (s : String) (a b : PyNum) : Except CalcError PyNum :=
  match s with
  | "-" => Except.ok (pySub a b)
  | "+" => Except.ok (pyAdd a b)
  | "/" => pyDiv a b
  | "*" => Except.ok (pyMul a b)
  | "^" => pyPow a b
  | _ => Except.error CalcError.invalidExpression

/-- Dispatch of Calculator.unary_operators: operator.neg for a minus sign and
operator.pos (the identity) for a plus sign.  The unary stack only ever holds
these two tokens, so the identity catch-all is unreachable. -/
def applyUnary (s : String) (v : PyNum) : PyNum :=
  if s == ("-") then pyNeg v else v

/-- An item of the list produced by transform_infix_to_postfix: a resolved
numeric operand or a binary-operator string. -/
inductive RpnItem where
  | num : PyNum → RpnItem
  | op : String → RpnItem
  deriving DecidableEq

/-- The per-session variable dictionary self._variables, as an
insertion-ordered association list. -/
abbrev VarStore := List (String × PyNum)

/-- Dictionary lookup self._variables[token]. -/
def VarStore.get : VarStore → String → Option PyNum
  | [], _ => none
  | (k2, v) :: rest, k => if k2 == k then some v else VarStore.get rest k

/-- Dictionary update self._variables[identifier] = value: an existing key
keeps its position, a new key is appended. -/
def VarStore.set : VarStore → String → PyNum → VarStore
  | [], k, v => [(k, v)]
  | (k2, v2) :: rest, k, v =>
    if k2 == k then (k, v) :: rest else (k2, v2) :: VarStore.set rest k v

/-- One iteration of the token loop of compute_postfix_expresion, acting on
the value stack (head is the top).  Only a string that is a binary operator
with at least two stacked values, or an int operand, is accepted; every other
item — including a float operand, which fails the isinstance(token, int)
check — raises InvalidExpression. -/
def computeStep (it : RpnItem) (stck : List PyNum) :
    Except CalcError (List PyNum) :=
  match it with
  | RpnItem.op s =>
    if isBinaryOp s then
      match stck with
      | b :: a :: rest =>
        match applyBin s a b with
        | Except.ok v => Except.ok (v :: rest)
        | Except.error e => Except.error e
      | _ => Except.error CalcError.invalidExpression
    else Except.error CalcError.invalidExpression
  | RpnItem.num v =>
    match v with
    | PyNum.i n => Except.ok (PyNum.i n :: stck)
    | _ => Except.error CalcError.invalidExpression

/-- The full token loop of compute_postfix_expresion. -/
def compGo : List RpnItem → List PyNum → Except CalcError (List PyNum)
  | [], stck => Except.ok stck
  | it :: its, stck =>
    match computeStep it stck with
    | Except.ok s2 => compGo its s2
    | Except.error e => Except.error e

/-- The integral-result conversion at the end of compute_postfix_expresion:
stack[-1] % 1 == 0 tests integrality, int(stack[-1]) converts.  An
untracked real float is returned untracked: whether CPython converts it to
int depends on its untracked value, so the model keeps it opaque either
way (never applied to a complex value — finalize raises first). -/
def normalizeNum : PyNum → PyNum
  | PyNum.f q => if q.den = 1 then PyNum.i q.num else PyNum.f q
  | v => v

/-- The code after the loop of compute_postfix_expresion: stack[-1] on an
empty list raises IndexError; a complex top raises TypeError at
stack[-1] % 1, since complex does not support the % operator; otherwise the
(possibly converted) top value is popped and returned, ignoring any values
below it. -/
def finalize (stck : List PyNum) : Except CalcError PyNum :=
  match stck with
  | [] => Except.error CalcError.indexError
  | PyNum.complexVal :: _ => Except.error CalcError.typeError
  | v :: _ => Except.ok (normalizeNum v)

/-- Calculator.compute_postfix_expresion. -/
def computeRpn (pf : List RpnItem) : Except CalcError PyNum :=
  match compGo pf [] with
  | Except.ok stck => finalize stck
  | Except.error e => Except.error e

/-- The scan state of transform_infix_to_postfix: the binary-operator /
parenthesis stack, the pending-unary stack (heads are the tops), the
next_operator_is_binary flag, and the output accumulated so far. -/
structure TState where
  binStack : List String
  unStack : List String
  nextBinary : Bool
  output : List RpnItem
  deriving DecidableEq

/-- The state at the start of the scan. -/
def initTState : TState := TState.mk [] [] false []

/-- set(token).issubset(digits); true for the empty string. -/
def allDigits (s : String) : Bool := s.toList.all Char.isDigit

/-- set(token).issubset(ascii_letters); true for the empty string. -/
def allAlpha (s : String) : Bool := s.toList.all Char.isAlpha

/-- set(token).intersection(ascii_letters) is non-empty. -/
def hasAlpha (s : String) : Bool := s.toList.any Char.isAlpha

/-- set(token).intersection(digits) is non-empty. -/
def hasDigit (s : String) : Bool := s.toList.any Char.isDigit

/-- int(token) on an all-digit token (48 is the code of the zero digit). -/
def digitsVal (s : String) : Nat :=
  s.toList.foldl (fun n c => 10 * n + (c.toNat - 48)) 0

/-- The while loop applying every pending unary operator to an operand, top
of the unary stack first. -/
def foldUnary : List String → PyNum → PyNum
  | [], v => v
  | o :: rest, v => foldUnary rest (applyUnary o v)

/-- The pop condition of the binary-operator branch: keep popping while the
stack top is not a left parenthesis and the incoming operator's precedence is
at most the top's precedence. -/
def popCond (tok o : String) : Bool :=
  !(o == ("(")) && decide (prec tok ≤ prec o)

/-- The pop condition of the right-parenthesis branch and of the after-scan
drain: keep popping while the stack top is not a left parenthesis. -/
def notParen (o : String) : Bool := !(o == ("("))

/-- One iteration of the token loop of transform_infix_to_postfix, with the
eight branches in source order. -/
def step (vars : VarStore) (st : TState) (tok : String) :
    Except CalcError TState :=
  if st.nextBinary && isBinaryOp tok then
    Except.ok (TState.mk (tok :: st.binStack.dropWhile (popCond tok))
      st.unStack false
      (st.output ++ (st.binStack.takeWhile (popCond tok)).map RpnItem.op))
  else if isUnaryOp tok && !st.nextBinary then
    Except.ok (TState.mk st.binStack (tok :: st.unStack) st.nextBinary
      st.output)
  else if allDigits tok && !st.nextBinary then
    if tok == ("") then Except.error CalcError.valueError
    else
      Except.ok (TState.mk st.binStack [] true
        (st.output ++ [RpnItem.num (foldUnary st.unStack
          (PyNum.i (digitsVal tok)))]))
  else if allAlpha tok && !st.nextBinary then
    match VarStore.get vars tok with
    | none => Except.error CalcError.unknownVariable
    | some v =>
      Except.ok (TState.mk st.binStack [] true
        (st.output ++ [RpnItem.num (foldUnary st.unStack v)]))
  else if (tok == ("(")) && !st.nextBinary then
    if st.unStack.isEmpty then
      Except.ok (TState.mk (("(") :: st.binStack) st.unStack st.nextBinary
        st.output)
    else Except.error CalcError.invalidExpression
  else if (tok == (")")) && st.nextBinary then
    match st.binStack.dropWhile notParen with
    | [] => Except.error CalcError.invalidExpression
    | _ :: rest =>
      Except.ok (TState.mk rest st.unStack st.nextBinary
        (st.output ++ (st.binStack.takeWhile notParen).map RpnItem.op))
  else if hasAlpha tok && hasDigit tok then
    Except.error CalcError.invalidIdentifier
  else Except.error CalcError.invalidExpression

/-- The after-scan drain of transform_infix_to_postfix: pop the remaining
binary operators into the output; if a left parenthesis remains, raise
InvalidExpression. -/
def drain (st : TState) : Except CalcError (List RpnItem) :=
  match st.binStack.dropWhile notParen with
  | [] => Except.ok (st.output ++ (st.binStack.takeWhile notParen).map
      RpnItem.op)
  | _ :: _ => Except.error CalcError.invalidExpression

/-- The full token scan of transform_infix_to_postfix from a given state. -/
def transGo (vars : VarStore) : List String → TState →
    Except CalcError (List RpnItem)
  | [], st => drain st
  | t :: ts, st =>
    match step vars st t with
    | Except.ok st2 => transGo vars ts st2
    | Except.error e => Except.error e

/-- Calculator.transform_infix_to_postfix. -/
def transformToRpn (vars : VarStore) (toks : List String) :
    Except CalcError (List RpnItem) :=
  transGo vars toks initTState

/-- The composition used by process_expression and process_assignment:
transform the token sequence, then evaluate the resulting sequence. -/
def runPipeline (vars : VarStore) (toks : List String) :
    Except CalcError PyNum :=
  match transformToRpn vars toks with
  | Except.ok pf => computeRpn pf
  | Except.error e => Except.error e

/-- What a line-processing call produces: a printed value, a printed error
message, a silent store update (successful assignment), or an uncaught
exception that escapes the handler. -/
inductive LineOutput where
  | value : PyNum → LineOutput
  | stored : LineOutput
  | message : String → LineOutput
  | uncaught : CalcError → LineOutput
  deriving DecidableEq

/-- Calculator.process_expression after tokenization: the pipeline result is
printed, the three classified errors are caught and rendered, anything else
escapes; the variable store is never written. -/
def process_expression (vars : VarStore) (toks : List String) :
    LineOutput × VarStore :=
  match runPipeline vars toks with
  | Except.ok v => (LineOutput.value v, vars)
  | Except.error CalcError.invalidExpression =>
    (LineOutput.message ("Invalid expression"), vars)
  | Except.error CalcError.unknownVariable =>
    (LineOutput.message ("Unknown variable"), vars)
  | Except.error CalcError.invalidIdentifier =>
    (LineOutput.message ("Invalid identifier"), vars)
  | Except.error e => (LineOutput.uncaught e, vars)

/-- Calculator.process_assignment after remove_extra_spaces and the split on
the equals sign produced the identifier and the right-hand-side token list
(source lines 208 to 220): a non-alphabetic identifier is rejected, a failing
right-hand side leaves the store untouched, a successful evaluation stores
the value. -/
def process_assignment (vars : VarStore) (identifier : String)
    (toks : List String) : LineOutput × VarStore :=
  if allAlpha identifier then
    match runPipeline vars toks with
    | Except.ok v => (LineOutput.stored, VarStore.set vars identifier v)
    | Except.error CalcError.invalidExpression =>
      (LineOutput.message ("Invalid assignment"), vars)
    | Except.error CalcError.invalidIdentifier =>
      (LineOutput.message ("Invalid assignment"), vars)
    | Except.error CalcError.unknownVariable =>
      (LineOutput.message ("Unknown variable"), vars)
    | Except.error e => (LineOutput.uncaught e, vars)
  else (LineOutput.message ("Invalid identifier"), vars)

/-- Decidable equality of pipeline results, used to evaluate concrete runs. -/
instance exceptDecEq {e a : Type} [DecidableEq e] [DecidableEq a] :
    DecidableEq (Except e a) := fun x y =>
  match x, y with
  | Except.ok v, Except.ok w =>
    if h : v = w then isTrue (by rw [h])
    else isFalse (fun hc => by cases hc; exact h rfl)
  | Except.error v, Except.error w =>
    if h : v = w then isTrue (by rw [h])
    else isFalse (fun hc => by cases hc; exact h rfl)
  | Except.ok _, Except.error _ => isFalse (fun hc => by cases hc)
  | Except.error _, Except.ok _ => isFalse (fun hc => by cases hc)

/-- Big-step relation mirroring the token scan of transform_infix_to_postfix,
used to state determinism of the transformation. -/
inductive TransRel (vars : VarStore) :
    List String → TState → Except CalcError (List RpnItem) → Prop where
  | done : ∀ st, TransRel vars [] st (drain st)
  | stepOk : ∀ t ts st st2 r, step vars st t = Except.ok st2 →
      TransRel vars ts st2 r → TransRel vars (t :: ts) st r
  | stepErr : ∀ t ts st e, step vars st t = Except.error e →
      TransRel vars (t :: ts) st (Except.error e)

/-- Big-step relation mirroring the token loop of compute_postfix_expresion,
used to state determinism of the evaluation. -/
inductive CompRel : List RpnItem → List PyNum → Except CalcError PyNum →
    Prop where
  | done : ∀ stck, CompRel [] stck (finalize stck)
  | stepOk : ∀ it its stck s2 r, computeStep it stck = Except.ok s2 →
      CompRel its s2 r → CompRel (it :: its) stck r
  | stepErr : ∀ it its stck e, computeStep it stck = Except.error e →
      CompRel (it :: its) stck (Except.error e)

section
attribute [local semireducible] Rat.mul Rat.inv Rat.add Rat.sub

/-- Folding the pending unary stack into an int operand yields the operand
with sign equal to the product of the signs on the stack. -/
theorem foldUnary_int (u : List String) (n : ℤ)
    (h : ∀ o ∈ u, o = ("-") ∨ o = ("+")) :
    foldUnary u (PyNum.i n) =
      PyNum.i (if Even (u.count ("-")) then n else -n) := by
  induction u generalizing n with
  | nil => simp [foldUnary]
  | cons o rest ih =>
    rcases h o (List.mem_cons_self o rest) with ho | ho
    · subst ho
      have hc : (("-") :: rest).count ("-") = rest.count ("-") + 1 := by
        simp [List.count_cons]
      rw [hc]
      have happ : applyUnary ("-") (PyNum.i n) = PyNum.i (-n) := by
        simp [applyUnary, pyNeg]
      rw [foldUnary, happ,
        ih (-n) (fun o2 ho2 => h o2 (List.mem_cons_of_mem _ ho2))]
      by_cases he : Even (rest.count ("-"))
      · rw [if_pos he, if_neg (by simp [Nat.even_add_one, he])]
      · rw [if_neg he, if_pos (by simp [Nat.even_add_one, he]), neg_neg]
    · subst ho
      have hc : (("+") :: rest).count ("-") = rest.count ("-") := by
        simp [List.count_cons]
      have happ : applyUnary ("+") (PyNum.i n) = PyNum.i n := by
        simp [applyUnary]
      rw [hc, foldUnary, happ,
        ih n (fun o2 ho2 => h o2 (List.mem_cons_of_mem _ ho2))]

/-- Looking up the key just stored finds the stored value. -/
theorem varStore_get_set_self (vars : VarStore) (k : String) (v : PyNum) :
    VarStore.get (VarStore.set vars k v) k = some v := by
  induction vars with
  | nil => simp [VarStore.set, VarStore.get]
  | cons p rest ih =>
    obtain ⟨k2, v2⟩ := p
    by_cases h : k2 = k
    · subst h
      simp [VarStore.set, VarStore.get]
    · have hb : (k2 == k) = false := beq_eq_false_iff_ne.mpr h
      simp [VarStore.set, VarStore.get, hb, ih]

/-- Storing under one key leaves every other key's binding unchanged. -/
theorem varStore_get_set_other (vars : VarStore) (k k2 : String) (v : PyNum)
    (h : k2 ≠ k) :
    VarStore.get (VarStore.set vars k v) k2 = VarStore.get vars k2 := by
  induction vars with
  | nil =>
    simp [VarStore.set, VarStore.get, beq_eq_false_iff_ne.mpr (Ne.symm h)]
  | cons p rest ih =>
    obtain ⟨k3, v3⟩ := p
    by_cases h3 : k3 = k
    · subst h3
      simp [VarStore.set, VarStore.get, beq_eq_false_iff_ne.mpr (Ne.symm h)]
    · have hb : (k3 == k) = false := beq_eq_false_iff_ne.mpr h3
      by_cases h4 : k3 = k2
      · subst h4
        simp [VarStore.set, VarStore.get, hb]
      · have hb4 : (k3 == k2) = false := beq_eq_false_iff_ne.mpr h4
        simp [VarStore.set, VarStore.get, hb, hb4, ih]

/-- The scan relation holds of what the scan function computes. -/
theorem transRel_run (vars : VarStore) (toks : List String) (st : TState) :
    TransRel vars toks st (transGo vars toks st) := by
  induction toks generalizing st with
  | nil => exact TransRel.done st
  | cons t ts ih =>
    cases hs : step vars st t with
    | ok st2 =>
      have : transGo vars (t :: ts) st = transGo vars ts st2 := by
        simp [transGo, hs]
      rw [this]
      exact TransRel.stepOk t ts st st2 _ hs (ih st2)
    | error e =>
      have : transGo vars (t :: ts) st = Except.error e := by
        simp [transGo, hs]
      rw [this]
      exact TransRel.stepErr t ts st e hs

/-- Every result derivable by the scan relation is the scan function's
output. -/
theorem transRel_eq_run (vars : VarStore) (toks : List String) (st : TState)
    (r : Except CalcError (List RpnItem)) (h : TransRel vars toks st r) :
    r = transGo vars toks st := by
  induction h with
  | done st => rfl
  | stepOk t ts st st2 r hs hrel ih => simp [transGo, hs, ih]
  | stepErr t ts st e hs => simp [transGo, hs]

/-- The scan relation is deterministic. -/
theorem transRel_det (vars : VarStore) (toks : List String) (st : TState)
    (r1 r2 : Except CalcError (List RpnItem))
    (h1 : TransRel vars toks st r1) (h2 : TransRel vars toks st r2) :
    r1 = r2 :=
  (transRel_eq_run vars toks st r1 h1).trans
    (transRel_eq_run vars toks st r2 h2).symm

/-- The evaluation relation holds of what the evaluator computes. -/
theorem compRel_run (pf : List RpnItem) (stck : List PyNum) :
    CompRel pf stck (match compGo pf stck with
      | Except.ok s => finalize s
      | Except.error e => Except.error e) := by
  induction pf generalizing stck with
  | nil => exact CompRel.done stck
  | cons it its ih =>
    cases hs : computeStep it stck with
    | ok s2 =>
      have : compGo (it :: its) stck = compGo its s2 := by
        simp [compGo, hs]
      rw [this]
      exact CompRel.stepOk it its stck s2 _ hs (ih s2)
    | error e =>
      have : compGo (it :: its) stck = Except.error e := by
        simp [compGo, hs]
      rw [this]
      exact CompRel.stepErr it its stck e hs

/-- Every result derivable by the evaluation relation is what the evaluation
function computes. -/
theorem compRel_eq_run (pf : List RpnItem) (stck : List PyNum)
    (r : Except CalcError PyNum) (h : CompRel pf stck r) :
    r = (match compGo pf stck with
      | Except.ok s => finalize s
      | Except.error e => Except.error e) := by
  induction h with
  | done stck => rfl
  | stepOk it its stck s2 r hs hrel ih => simp [compGo, hs, ih]
  | stepErr it its stck e hs => simp [compGo, hs]

/-- The evaluation relation is deterministic. -/
theorem compRel_det (pf : List RpnItem) (stck : List PyNum)
    (r1 r2 : Except CalcError PyNum)
    (h1 : CompRel pf stck r1) (h2 : CompRel pf stck r2) : r1 = r2 :=
  (compRel_eq_run pf stck r1 h1).trans (compRel_eq_run pf stck r2 h2).symm

/-- The element a dropWhile stops in front of falsifies the predicate. -/
theorem dropWhile_cons_false {a : Type} {p : a → Bool} :
    ∀ (l : List a) (o : a) (r : List a),
      l.dropWhile p = o :: r → p o = false := by
  intro l
  induction l with
  | nil => intro o r h; cases h
  | cons x xs ih =>
    intro o r h
    rw [List.dropWhile_cons] at h
    by_cases hp : p x = true
    · rw [if_pos hp] at h
      exact ih o r h
    · rw [if_neg hp] at h
      cases h
      simpa using hp

/-- C1: the claim says a numeric operand in a postfix sequence — including a
non-integral value such as 0.5 obtained from the variable store — is pushed
and does not raise InvalidExpression on that item.  The code violates this:
the isinstance(token, int) check at line 105 accepts only int operands, so
the float operand 0.5 raises InvalidExpression, both at the evaluator
directly and through the full pipeline reading the value of x; only int
operands are pushed. -/
theorem c1_float_operand_rejected :
    computeStep (RpnItem.num (PyNum.f (1/2))) [] =
      Except.error CalcError.invalidExpression ∧
    computeRpn [RpnItem.num (PyNum.f (1/2))] =
      Except.error CalcError.invalidExpression ∧
    runPipeline [(("x" : String), PyNum.f (1/2))] [("x")] =
      Except.error CalcError.invalidExpression ∧
    computeStep (RpnItem.num (PyNum.i 5)) [] = Except.ok [PyNum.i 5] :=
  ⟨by decide, by decide, by decide, by decide⟩

/-- C2 (counterexample): with two values left on the stack after the loop the
evaluator does not fail with InvalidExpression as the claim states — it
returns the top value and silently ignores the rest. -/
theorem c2_two_values_returned :
    computeRpn [RpnItem.num (PyNum.i 1), RpnItem.num (PyNum.i 2)] =
      Except.ok (PyNum.i 2) := by
  decide

/-- C2 (amended): the code after the loop performs no stack-size check.  On a
nonempty final stack whose top is not complex it returns the (integral-
normalized) top value, silently ignoring any values below it — so with two
values left it returns the top instead of failing; on a complex top —
reachable, e.g. the token sequence ( 0 - 8 ) ^ ( 1 / 2 ) — stack[-1] % 1
raises an uncaught TypeError; and on an empty stack (the empty postfix
sequence) stack[-1] raises an uncaught IndexError.  None of these paths
raises InvalidExpression. -/
theorem c2_final_stack (s : List PyNum) (v : PyNum) (t : List PyNum)
    (hs : s = v :: t) (hv : v ≠ PyNum.complexVal) :
    (∃ w, finalize s = Except.ok w) ∧
    finalize (PyNum.complexVal :: t) = Except.error CalcError.typeError ∧
    finalize [] = Except.error CalcError.indexError ∧
    runPipeline [] [("("), ("0"), ("-"), ("8"), (")"), ("^"), ("("), ("1"),
      ("/"), ("2"), (")")] = Except.error CalcError.typeError ∧
    computeRpn [RpnItem.num (PyNum.i 1), RpnItem.num (PyNum.i 2),
      RpnItem.num (PyNum.i 3)] = Except.ok (PyNum.i 3) ∧
    computeRpn [] = Except.error CalcError.indexError := by
  subst hs
  refine ⟨?_, rfl, by decide, by decide, by decide, by decide⟩
  cases v with
  | i n => exact ⟨PyNum.i n, rfl⟩
  | f q => exact ⟨normalizeNum (PyNum.f q), rfl⟩
  | nonRat => exact ⟨PyNum.nonRat, rfl⟩
  | complexVal => exact absurd rfl hv

/-- C2 (witness): the amended statement applied to the two-value final stack
left by the postfix sequence of two int operands. -/
theorem c2_final_stack_witness :
    ([PyNum.i 1, PyNum.i 2] : List PyNum) = PyNum.i 1 :: [PyNum.i 2] ∧
    PyNum.i 1 ≠ PyNum.complexVal ∧
    ((∃ w, finalize [PyNum.i 1, PyNum.i 2] = Except.ok w) ∧
    finalize (PyNum.complexVal :: [PyNum.i 2]) =
      Except.error CalcError.typeError ∧
    finalize [] = Except.error CalcError.indexError ∧
    runPipeline [] [("("), ("0"), ("-"), ("8"), (")"), ("^"), ("("), ("1"),
      ("/"), ("2"), (")")] = Except.error CalcError.typeError ∧
    computeRpn [RpnItem.num (PyNum.i 1), RpnItem.num (PyNum.i 2),
      RpnItem.num (PyNum.i 3)] = Except.ok (PyNum.i 3) ∧
    computeRpn [] = Except.error CalcError.indexError) :=
  ⟨rfl, by decide, c2_final_stack [PyNum.i 1, PyNum.i 2] (PyNum.i 1)
    [PyNum.i 2] rfl (by decide)⟩

/-- C3: evaluating the postfix sequence for 1 / 0 raises ZeroDivisionError,
an error that is none of the three classified kinds and therefore escapes
process_expression uncaught. -/
theorem c3_div_zero_escapes :
    computeRpn [RpnItem.num (PyNum.i 1), RpnItem.num (PyNum.i 0),
        RpnItem.op ("/")] = Except.error CalcError.zeroDivisionError ∧
    runPipeline [] [("1"), ("/"), ("0")] =
      Except.error CalcError.zeroDivisionError ∧
    (process_expression [] [("1"), ("/"), ("0")]).1 =
      LineOutput.uncaught CalcError.zeroDivisionError ∧
    ¬ classifiedError CalcError.zeroDivisionError :=
  ⟨by decide, by decide, by decide, by decide⟩

/-- C8: a left parenthesis arriving in operand position while the unary stack
is nonempty raises InvalidExpression; in particular the token sequence
- ( 3 + 2 ) fails with InvalidExpression. -/
theorem c8_unary_before_paren (vars : VarStore) (st : TState)
    (h1 : st.nextBinary = false) (h2 : st.unStack ≠ []) :
    step vars st ("(") = Except.error CalcError.invalidExpression ∧
    transformToRpn [] [("-"), ("("), ("3"), ("+"), ("2"), (")")] =
      Except.error CalcError.invalidExpression ∧
    runPipeline [] [("-"), ("("), ("3"), ("+"), ("2"), (")")] =
      Except.error CalcError.invalidExpression := by
  refine ⟨?_, by decide, by decide⟩
  have e2 : isUnaryOp ("(") = false := by decide
  have e3 : allDigits ("(") = false := by decide
  have e4 : allAlpha ("(") = false := by decide
  have he : st.unStack.isEmpty = false := by
    cases hu : st.unStack with
    | nil => exact absurd hu h2
    | cons o l => rfl
  unfold step
  simp [h1, e2, e3, e4, he]

/-- C8 (witness): the statement applied to the state reached right after a
pending unary minus, about to read a left parenthesis. -/
theorem c8_unary_before_paren_witness :
    (TState.mk [] [("-")] false []).nextBinary = false ∧
    (TState.mk [] [("-")] false []).unStack ≠ [] ∧
    (step [] (TState.mk [] [("-")] false []) ("(") =
      Except.error CalcError.invalidExpression ∧
    transformToRpn [] [("-"), ("("), ("3"), ("+"), ("2"), (")")] =
      Except.error CalcError.invalidExpression ∧
    runPipeline [] [("-"), ("("), ("3"), ("+"), ("2"), (")")] =
      Except.error CalcError.invalidExpression) :=
  ⟨rfl, by decide,
    c8_unary_before_paren [] (TState.mk [] [("-")] false []) rfl (by decide)⟩

/-- C4: when a binary operator arrives with the flag expecting one, every
stacked operator of greater or equal precedence (stopping at a left
parenthesis) is popped into the output before the new operator is pushed, so
all operators — including the caret — are left-associative, and 2 ^ 3 ^ 2
evaluates to 64, not 512. -/
theorem c4_left_assoc (vars : VarStore) (st : TState) (tok : String)
    (h1 : st.nextBinary = true) (h2 : isBinaryOp tok = true) :
    (∃ popped rest, st.binStack = popped ++ rest ∧
      (∀ o ∈ popped, o ≠ ("(") ∧ prec tok ≤ prec o) ∧
      (∀ o rest2, rest = o :: rest2 → o = ("(") ∨ prec o < prec tok) ∧
      step vars st tok = Except.ok (TState.mk (tok :: rest) st.unStack false
        (st.output ++ popped.map RpnItem.op))) ∧
    runPipeline [] [("2"), ("^"), ("3"), ("^"), ("2")] =
      Except.ok (PyNum.i 64) := by
  refine ⟨⟨st.binStack.takeWhile (popCond tok),
    st.binStack.dropWhile (popCond tok),
    (List.takeWhile_append_dropWhile (popCond tok) st.binStack).symm,
    ?_, ?_, ?_⟩, by decide⟩
  · intro o ho
    have hp := List.mem_takeWhile_imp ho
    unfold popCond at hp
    rw [Bool.and_eq_true] at hp
    refine ⟨?_, of_decide_eq_true hp.2⟩
    have hb : (o == ("(")) = false := by simpa using hp.1
    exact beq_eq_false_iff_ne.mp hb
  · intro o rest2 hr
    have hf : popCond tok o = false :=
      dropWhile_cons_false st.binStack o rest2 hr
    unfold popCond at hf
    rcases Bool.and_eq_false_iff.mp hf with hf1 | hf2
    · left
      have hb : (o == ("(")) = true := by simpa using hf1
      exact beq_iff_eq.mp hb
    · right
      exact Nat.lt_of_not_le (of_decide_eq_false hf2)
  · unfold step
    simp [h1, h2]

/-- C4 (witness): the statement applied to the incoming operator * over a
stack holding +, whose lower precedence stops the popping. -/
theorem c4_left_assoc_witness :
    (TState.mk [("+")] [] true []).nextBinary = true ∧
    isBinaryOp ("*") = true ∧
    ((∃ popped rest, (TState.mk [("+")] [] true []).binStack =
        popped ++ rest ∧
      (∀ o ∈ popped, o ≠ ("(") ∧ prec ("*") ≤ prec o) ∧
      (∀ o rest2, rest = o :: rest2 → o = ("(") ∨ prec o < prec ("*")) ∧
      step [] (TState.mk [("+")] [] true []) ("*") =
        Except.ok (TState.mk (("*") :: rest)
          (TState.mk [("+")] [] true []).unStack false
          ((TState.mk [("+")] [] true []).output ++ popped.map RpnItem.op))) ∧
    runPipeline [] [("2"), ("^"), ("3"), ("^"), ("2")] =
      Except.ok (PyNum.i 64)) :=
  ⟨rfl, by decide,
    c4_left_assoc [] (TState.mk [("+")] [] true []) ("*") rfl (by decide)⟩

/-- C5: a successful evaluation never returns a float carrying an integral
value — an integral result is normalized to the int representation —
and otherwise the exact non-integral value is returned: 10 / 2 gives the
int 5 and 1 / 2 gives the exact value one half. -/
theorem c5_integral_normalization (pf : List RpnItem) (q : ℚ)
    (h : computeRpn pf = Except.ok (PyNum.f q)) :
    q.den ≠ 1 ∧
    runPipeline [] [("10"), ("/"), ("2")] = Except.ok (PyNum.i 5) ∧
    runPipeline [] [("1"), ("/"), ("2")] = Except.ok (PyNum.f (1/2)) := by
  refine ⟨?_, by decide, by decide⟩
  unfold computeRpn at h
  cases hg : compGo pf [] with
  | error e =>
    rw [hg] at h
    cases h
  | ok s =>
    rw [hg] at h
    cases s with
    | nil => simp [finalize] at h
    | cons v t =>
      cases v with
      | i n => simp [finalize, normalizeNum] at h
      | f p =>
        simp only [finalize, Except.ok.injEq] at h
        simp only [normalizeNum] at h
        by_cases hd : p.den = 1
        · rw [if_pos hd] at h
          simp at h
        · rw [if_neg hd] at h
          injection h with h2
          rw [← h2]
          exact hd
      | nonRat => simp [finalize, normalizeNum] at h
      | complexVal => simp [finalize] at h

/-- C5 (witness): the statement applied to the postfix sequence for 1 / 2,
whose result is the non-integral float one half. -/
theorem c5_integral_normalization_witness :
    computeRpn [RpnItem.num (PyNum.i 1), RpnItem.num (PyNum.i 2),
        RpnItem.op ("/")] = Except.ok (PyNum.f (1/2)) ∧
    (((1 : ℚ)/2).den ≠ 1 ∧
    runPipeline [] [("10"), ("/"), ("2")] = Except.ok (PyNum.i 5) ∧
    runPipeline [] [("1"), ("/"), ("2")] = Except.ok (PyNum.f (1/2))) :=
  ⟨by decide, c5_integral_normalization
    [RpnItem.num (PyNum.i 1), RpnItem.num (PyNum.i 2), RpnItem.op ("/")]
    ((1 : ℚ)/2) (by decide)⟩

/-- C6: an all-digit literal read in operand position folds the whole pending
unary stack into a single emitted operand whose value carries the product of
the pending signs: an even number of minus signs leaves the literal's value,
an odd number negates it. -/
theorem c6_unary_fold (vars : VarStore) (st : TState) (tok : String)
    (h1 : st.nextBinary = false) (h2 : tok ≠ (""))
    (h3 : allDigits tok = true)
    (h4 : ∀ o ∈ st.unStack, o = ("-") ∨ o = ("+")) :
    step vars st tok = Except.ok (TState.mk st.binStack [] true
      (st.output ++ [RpnItem.num (PyNum.i
        (if Even (st.unStack.count ("-")) then (digitsVal tok : ℤ)
         else -(digitsVal tok : ℤ)))])) := by
  have hu : isUnaryOp tok = false := by
    unfold isUnaryOp
    have hm : (tok == ("-")) = false := by
      cases hq : tok == ("-") with
      | false => rfl
      | true =>
        exfalso
        rw [show tok = ("-") from beq_iff_eq.mp hq] at h3
        exact absurd h3 (by decide)
    have hp : (tok == ("+")) = false := by
      cases hq : tok == ("+") with
      | false => rfl
      | true =>
        exfalso
        rw [show tok = ("+") from beq_iff_eq.mp hq] at h3
        exact absurd h3 (by decide)
    rw [hm, hp]
    rfl
  have hne : (tok == ("")) = false := beq_eq_false_iff_ne.mpr h2
  unfold step
  simp [h1, hu, h3, hne, foldUnary_int st.unStack ((digitsVal tok : ℤ)) h4]

/-- C6 (witness): the statement applied to the literal 7 preceded by three
pending minus signs, which fold to the operand negative seven. -/
theorem c6_unary_fold_witness :
    (TState.mk [] [("-"), ("-"), ("-")] false []).nextBinary = false ∧
    (("7" : String) ≠ ("")) ∧
    allDigits ("7") = true ∧
    (∀ o ∈ (TState.mk [] [("-"), ("-"), ("-")] false []).unStack,
      o = ("-") ∨ o = ("+")) ∧
    step [] (TState.mk [] [("-"), ("-"), ("-")] false []) ("7") =
      Except.ok (TState.mk [] [] true
        ([] ++ [RpnItem.num (PyNum.i
          (if Even ((([("-"), ("-"), ("-")] : List String)).count ("-"))
           then (digitsVal ("7") : ℤ) else -(digitsVal ("7") : ℤ)))])) :=
  ⟨rfl, by decide, by decide, by decide,
    c6_unary_fold [] (TState.mk [] [("-"), ("-"), ("-")] false []) ("7")
      rfl (by decide) (by decide) (by decide)⟩

/-- C7: a right parenthesis read while no left parenthesis is stacked fails
with InvalidExpression at that token, a left parenthesis still stacked after
the scan fails with InvalidExpression in the drain, and both of the token
sequences ( 1 + 2 and 1 + 2 ) fail with InvalidExpression. -/
theorem c7_unbalanced_paren (vars : VarStore) (st st2 : TState)
    (h1 : ("(") ∈ st.binStack) (h2 : st2.nextBinary = true)
    (h3 : ("(") ∉ st2.binStack) :
    drain st = Except.error CalcError.invalidExpression ∧
    step vars st2 (")") = Except.error CalcError.invalidExpression ∧
    transformToRpn [] [("("), ("1"), ("+"), ("2")] =
      Except.error CalcError.invalidExpression ∧
    transformToRpn [] [("1"), ("+"), ("2"), (")")] =
      Except.error CalcError.invalidExpression := by
  refine ⟨?_, ?_, by decide, by decide⟩
  · unfold drain
    cases hd : st.binStack.dropWhile notParen with
    | nil =>
      exfalso
      have hx := List.dropWhile_eq_nil_iff.mp hd ("(") h1
      simp [notParen] at hx
    | cons o rest => rfl
  · have hd : st2.binStack.dropWhile notParen = [] := by
      refine List.dropWhile_eq_nil_iff.mpr (fun x hx => ?_)
      simp only [notParen, Bool.not_eq_eq_eq_not, Bool.not_true,
        beq_eq_false_iff_ne]
      intro he
      exact h3 (he ▸ hx)
    have e1 : isBinaryOp (")") = false := by decide
    have e2 : isUnaryOp (")") = false := by decide
    have e3 : allDigits (")") = false := by decide
    have e4 : allAlpha (")") = false := by decide
    have e5 : (((")") : String) == ("(")) = false := by decide
    unfold step
    simp [h2, e1, e2, e3, e4, e5, hd]

/-- C7 (witness): the statement applied to a drain state still holding a left
parenthesis and a scan state reading a right parenthesis over an empty
operator stack. -/
theorem c7_unbalanced_paren_witness :
    (("(" : String)) ∈ (TState.mk [("(")] [] true []).binStack ∧
    (TState.mk [] [] true []).nextBinary = true ∧
    ((("(" : String)) ∉ (TState.mk [] [] true []).binStack) ∧
    (drain (TState.mk [("(")] [] true []) =
      Except.error CalcError.invalidExpression ∧
    step [] (TState.mk [] [] true []) (")") =
      Except.error CalcError.invalidExpression ∧
    transformToRpn [] [("("), ("1"), ("+"), ("2")] =
      Except.error CalcError.invalidExpression ∧
    transformToRpn [] [("1"), ("+"), ("2"), (")")] =
      Except.error CalcError.invalidExpression) :=
  ⟨by decide, rfl, by decide,
    c7_unbalanced_paren [] (TState.mk [("(")] [] true [])
      (TState.mk [] [] true []) (by decide) rfl (by decide)⟩

/-- C9: the variable store is mutated only by a successful assignment — a
plain expression evaluation never changes it, an assignment with an invalid
identifier or a failing right-hand side leaves it unchanged, and a
successful assignment binds the assigned identifier to the computed value
while every other key's binding is unchanged. -/
theorem c9_store_mutation (vars : VarStore) (idf k : String)
    (toks : List String) (hk : k ≠ idf) :
    (process_expression vars toks).2 = vars ∧
    (allAlpha idf = false → (process_assignment vars idf toks).2 = vars) ∧
    (∀ e, runPipeline vars toks = Except.error e →
      (process_assignment vars idf toks).2 = vars) ∧
    (∀ v, allAlpha idf = true → runPipeline vars toks = Except.ok v →
      VarStore.get (process_assignment vars idf toks).2 idf = some v ∧
      VarStore.get (process_assignment vars idf toks).2 k =
        VarStore.get vars k) := by
  refine ⟨?_, ?_, ?_, ?_⟩
  · unfold process_expression
    cases hr : runPipeline vars toks with
    | ok v => rfl
    | error e => cases e <;> rfl
  · intro ha
    unfold process_assignment
    rw [ha]
    rfl
  · intro e he
    by_cases ha : allAlpha idf = true
    · cases e <;> simp [process_assignment, ha, he]
    · have ha2 : allAlpha idf = false := by
        cases haa : allAlpha idf with
        | false => rfl
        | true => exact absurd haa ha
      simp [process_assignment, ha2]
  · intro v ha hv
    have hpa : process_assignment vars idf toks =
        (LineOutput.stored, VarStore.set vars idf v) := by
      simp [process_assignment, ha, hv]
    rw [hpa]
    exact ⟨varStore_get_set_self vars idf v,
      varStore_get_set_other vars idf k v hk⟩

/-- C9 (witness): the statement applied to the assignment of 4 + 5 to x over
the empty store, observed at the unrelated key y. -/
theorem c9_store_mutation_witness :
    (("y" : String)) ≠ ("x") ∧
    ((process_expression [] [("4"), ("+"), ("5")]).2 = [] ∧
    (allAlpha ("x") = false →
      (process_assignment [] ("x") [("4"), ("+"), ("5")]).2 = []) ∧
    (∀ e, runPipeline [] [("4"), ("+"), ("5")] = Except.error e →
      (process_assignment [] ("x") [("4"), ("+"), ("5")]).2 = []) ∧
    (∀ v, allAlpha ("x") = true →
      runPipeline [] [("4"), ("+"), ("5")] = Except.ok v →
      VarStore.get (process_assignment [] ("x") [("4"), ("+"), ("5")]).2
        ("x") = some v ∧
      VarStore.get (process_assignment [] ("x") [("4"), ("+"), ("5")]).2
        ("y") = VarStore.get [] ("y"))) :=
  ⟨by decide, c9_store_mutation [] ("x") ("y") [("4"), ("+"), ("5")]
    (by decide)⟩

/-- C10: the pipeline is deterministic — any two runs of the scan relation
from the start state agree, any two runs of the evaluation relation from the
empty stack agree, and each coincides with the corresponding pure function
of the token sequence, the variable store and the postfix sequence. -/
theorem c10_deterministic (vars : VarStore) (toks : List String)
    (pf : List RpnItem) (r1 r2 : Except CalcError (List RpnItem))
    (v1 v2 : Except CalcError PyNum)
    (h1 : TransRel vars toks initTState r1)
    (h2 : TransRel vars toks initTState r2)
    (h3 : CompRel pf [] v1) (h4 : CompRel pf [] v2) :
    r1 = r2 ∧ v1 = v2 ∧ r1 = transformToRpn vars toks ∧
      v1 = computeRpn pf :=
  ⟨transRel_det vars toks initTState r1 r2 h1 h2,
    compRel_det pf [] v1 v2 h3 h4,
    transRel_eq_run vars toks initTState r1 h1,
    compRel_eq_run pf [] v1 h3⟩

/-- C10 (witness): the statement applied to the token sequence holding the
literal 1 and the singleton postfix sequence holding the operand 1, with all
four runs produced by the realization lemmas. -/
theorem c10_deterministic_witness :
    TransRel [] [("1")] initTState (transformToRpn [] [("1")]) ∧
    CompRel [RpnItem.num (PyNum.i 1)] []
      (computeRpn [RpnItem.num (PyNum.i 1)]) ∧
    (transformToRpn [] [("1")] = transformToRpn [] [("1")] ∧
    computeRpn [RpnItem.num (PyNum.i 1)] =
      computeRpn [RpnItem.num (PyNum.i 1)] ∧
    transformToRpn [] [("1")] = transformToRpn [] [("1")] ∧
    computeRpn [RpnItem.num (PyNum.i 1)] =
      computeRpn [RpnItem.num (PyNum.i 1)]) :=
  ⟨transRel_run [] [("1")] initTState,
    compRel_run [RpnItem.num (PyNum.i 1)] [],
    c10_deterministic [] [("1")] [RpnItem.num (PyNum.i 1)]
      (transformToRpn [] [("1")]) (transformToRpn [] [("1")])
      (computeRpn [RpnItem.num (PyNum.i 1)])
      (computeRpn [RpnItem.num (PyNum.i 1)])
      (transRel_run [] [("1")] initTState)
      (transRel_run [] [("1")] initTState)
      (compRel_run [RpnItem.num (PyNum.i 1)] [])
      (compRel_run [RpnItem.num (PyNum.i 1)] [])⟩

end
